import Mathlib

/-!
Verification of the postgres-querybuilder clause-assembly core.

The Rust sources (prelude.rs, select_builder.rs, insert_builder.rs,
update_builder.rs) are embedded shallowly: each builder struct becomes a Lean
structure, each method a pure function returning the updated builder, and the
heterogeneous parameter store becomes a list of `Val`.
-/

/-- A bindable value held by the parameter store.  The Rust code erases the
concrete type behind `dyn ToSql + Sync`; the claims only need that values are
compared by identity, so a small closed sum suffices. -/
inductive Val where
  | int (i : Int)
  | str (s : String)
  | bool (b : Bool)
deriving DecidableEq

/-- Modelled from the spec: the Parameter Store (`Bucket`, bucket.rs, a file of
this repository that is not under src/; only its callers are).  Per spec §4.1 it
owns an ordered sequence of bindable values, `push` appends a value and returns
its 1-based index, and reference extraction (`get_refs`) yields the stored
values in insertion order. -/
structure Bucket where
  content : List Val
deriving DecidableEq

def Bucket.new : Bucket := ⟨[]⟩

def Bucket.push (b : Bucket) (value : Val) : Bucket × Nat :=
  (⟨b.content ++ [value]⟩, b.content.length + 1)

def Bucket.get_refs (b : Bucket) : List Val := b.content

/-- The Rust `Vec::<String>::join(sep)` operation. -/
def joinStr (sep : String) : List String → String
  | [] => ""
  | [s] => s
  | s :: rest => s ++ sep ++ joinStr sep rest

/-- The Rust `.collect::<String>()` operation over an iterator of strings. -/
def concatStr : List String → String
  | [] => ""
  | s :: rest => s ++ concatStr rest

/-- Decimal digit character. -/
def digitChar (d : Nat) : Char :=
  if d = 0 then '0' else if d = 1 then '1' else if d = 2 then '2'
  else if d = 3 then '3' else if d = 4 then '4' else if d = 5 then '5'
  else if d = 6 then '6' else if d = 7 then '7' else if d = 8 then '8' else '9'

/-- Fuelled decimal rendering (structural recursion so that the kernel can
evaluate it). -/
def toDigitsAux : Nat → Nat → List Char
  | 0, _ => []
  | fuel + 1, n =>
    if n < 10 then [digitChar n] else toDigitsAux fuel (n / 10) ++ [digitChar (n % 10)]

/-- Decimal rendering of a `usize` index, as the Rust `format!` of a `usize`. -/
def natStr (n : Nat) : String := ⟨toDigitsAux (n + 1) n⟩

/-- The positional placeholder text `format!("${}", index)`. -/
def placeholder (i : Nat) : String := "$" ++ natStr i

/-- Boolean list-prefix test (used to state textual claims). -/
def isPre : List Char → List Char → Bool
  | [], _ => true
  | _ :: _, [] => false
  | p :: ps, c :: cs => p == c && isPre ps cs

/-- Boolean substring test on character lists. -/
def hasSub (pat : List Char) : List Char → Bool
  | [] => isPre pat []
  | c :: cs => isPre pat (c :: cs) || hasSub pat cs

/-- prelude.rs: `enum Join`. -/
inductive Join where
  | Inner (table constraint : String)
  | Left (table constraint : String)
  | LeftOuter (table constraint : String)
deriving DecidableEq

/-- prelude.rs: `Join::to_string`. -/
def Join.to_string : Join → String
  | .Inner table constraint => "INNER JOIN " ++ table ++ " ON " ++ constraint
  | .Left table constraint => "LEFT JOIN " ++ table ++ " ON " ++ constraint
  | .LeftOuter table constraint => "LEFT OUTER JOIN " ++ table ++ " ON " ++ constraint

/-- prelude.rs: `enum Order`. -/
inductive Order where
  | Asc (column : String)
  | Desc (column : String)
deriving DecidableEq

/-- prelude.rs: `Order::to_string`. -/
def Order.to_string : Order → String
  | .Asc column => column ++ " ASC"
  | .Desc column => column ++ " DESC"

/-- select_builder.rs: `struct SelectBuilder`. -/
structure SelectBuilder where
  columns : List String
  from_table : String
  conditions : List String
  joins : List Join
  groups : List String
  order : List Order
  limit : Option String
  offset : Option String
  params : Bucket
deriving DecidableEq

/-- select_builder.rs: `SelectBuilder::new`. -/
def SelectBuilder.new (fromTable : String) : SelectBuilder :=
  ⟨[], fromTable, [], [], [], [], none, none, Bucket.new⟩

/-- select_builder.rs: `SelectBuilder::select`. -/
def SelectBuilder.select (b : SelectBuilder) (column : String) : SelectBuilder :=
  { b with columns := b.columns ++ [column] }

/-- select_builder.rs: `SelectBuilder::add_where_raw`. -/
def SelectBuilder.add_where_raw (b : SelectBuilder) (raw : String) : SelectBuilder :=
  { b with conditions := b.conditions ++ [raw] }

/-- select_builder.rs: `SelectBuilder::select_to_query`. -/
def SelectBuilder.select_to_query (b : SelectBuilder) : String :=
  "SELECT " ++ (if b.columns.length = 0 then "*" else joinStr ", " b.columns)

/-- select_builder.rs: `SelectBuilder::from_to_query`. -/
def SelectBuilder.from_to_query (b : SelectBuilder) : String :=
  "FROM " ++ b.from_table

/-- select_builder.rs: `SelectBuilder::where_to_query`. -/
def SelectBuilder.where_to_query (b : SelectBuilder) : Option String :=
  if b.conditions.length > 0 then some ("WHERE " ++ joinStr " AND " b.conditions) else none

/-- select_builder.rs: `SelectBuilder::group_by_to_query`. -/
def SelectBuilder.group_by_to_query (b : SelectBuilder) : Option String :=
  if b.groups.length > 0 then some ("GROUP BY " ++ joinStr ", " b.groups) else none

/-- select_builder.rs: `SelectBuilder::order_by_to_query`. -/
def SelectBuilder.order_by_to_query (b : SelectBuilder) : Option String :=
  if b.order.length > 0 then
    some ("ORDER BY " ++ joinStr ", " (b.order.map Order.to_string))
  else none

/-- select_builder.rs: `SelectBuilder::limit_to_query`. -/
def SelectBuilder.limit_to_query (b : SelectBuilder) : Option String :=
  match b.limit with
  | some l => some ("LIMIT " ++ l)
  | none => none

/-- select_builder.rs: `SelectBuilder::offset_to_query`. -/
def SelectBuilder.offset_to_query (b : SelectBuilder) : Option String :=
  match b.offset with
  | some o => some ("OFFSET " ++ o)
  | none => none

/-- select_builder.rs: the `sections` vector built inside `get_query` (the
clauses pushed in source order; an optional clause contributes nothing when its
rendering is `None`).  Note: the source never pushes the `joins` list. -/
def SelectBuilder.sections (b : SelectBuilder) : List String :=
  [b.select_to_query, b.from_to_query] ++ b.where_to_query.toList
    ++ b.group_by_to_query.toList ++ b.order_by_to_query.toList
    ++ b.limit_to_query.toList ++ b.offset_to_query.toList

/-- select_builder.rs: `SelectBuilder::get_query` (`sections.join(" ")`). -/
def SelectBuilder.get_query (b : SelectBuilder) : String :=
  joinStr " " b.sections

/-- select_builder.rs: `QueryBuilder::add_param` for SelectBuilder. -/
def SelectBuilder.add_param (b : SelectBuilder) (value : Val) : SelectBuilder × Nat :=
  let p := b.params.push value
  ({ b with params := p.1 }, p.2)

/-- select_builder.rs: `QueryBuilder::get_ref_params` for SelectBuilder. -/
def SelectBuilder.get_ref_params (b : SelectBuilder) : List Val :=
  b.params.get_refs

/-- select_builder.rs: `QueryBuilderWithWhere::where_condition` for SelectBuilder. -/
def SelectBuilder.where_condition (b : SelectBuilder) (raw : String) : SelectBuilder :=
  { b with conditions := b.conditions ++ [raw] }

/-- prelude.rs: default `QueryBuilderWithWhere::where_eq`, instantiated at
SelectBuilder (`add_param` then a `field = $index` raw condition). -/
def SelectBuilder.where_eq (b : SelectBuilder) (field : String) (value : Val) : SelectBuilder :=
  let p := b.add_param value
  p.1.where_condition (field ++ " = " ++ placeholder p.2)

/-- prelude.rs: default `QueryBuilderWithWhere::where_ne`, instantiated at
SelectBuilder. -/
def SelectBuilder.where_ne (b : SelectBuilder) (field : String) (value : Val) : SelectBuilder :=
  let p := b.add_param value
  p.1.where_condition (field ++ " <> " ++ placeholder p.2)

/-- select_builder.rs: `QueryBuilderWithLimit::limit` (named `limit_` because
`limit` is the struct field). -/
def SelectBuilder.limit_ (b : SelectBuilder) (l : Int) : SelectBuilder :=
  let p := b.params.push (Val.int l)
  { b with params := p.1, limit := some (placeholder p.2) }

/-- select_builder.rs: `QueryBuilderWithOffset::offset` (named `offset_` because
`offset` is the struct field). -/
def SelectBuilder.offset_ (b : SelectBuilder) (o : Int) : SelectBuilder :=
  let p := b.params.push (Val.int o)
  { b with params := p.1, offset := some (placeholder p.2) }

/-- select_builder.rs: `QueryBuilderWithJoin::inner_join` for SelectBuilder. -/
def SelectBuilder.inner_join (b : SelectBuilder) (table_name relation : String) : SelectBuilder :=
  { b with joins := b.joins ++ [Join.Inner table_name relation] }

/-- select_builder.rs: `QueryBuilderWithJoin::left_join` for SelectBuilder
(the source pushes the `LeftOuter` variant here). -/
def SelectBuilder.left_join (b : SelectBuilder) (table_name relation : String) : SelectBuilder :=
  { b with joins := b.joins ++ [Join.LeftOuter table_name relation] }

/-- select_builder.rs: `QueryBuilderWithJoin::left_outer_join` for SelectBuilder
(the source pushes the `Left` variant here). -/
def SelectBuilder.left_outer_join (b : SelectBuilder) (table_name relation : String) : SelectBuilder :=
  { b with joins := b.joins ++ [Join.Left table_name relation] }

/-- select_builder.rs: `QueryBuilderWithGroupBy::group_by` for SelectBuilder. -/
def SelectBuilder.group_by (b : SelectBuilder) (field : String) : SelectBuilder :=
  { b with groups := b.groups ++ [field] }

/-- select_builder.rs: `QueryBuilderWithOrder::order_by` for SelectBuilder. -/
def SelectBuilder.order_by (b : SelectBuilder) (field : Order) : SelectBuilder :=
  { b with order := b.order ++ [field] }

/-- insert_builder.rs: `struct InsertBuilder`. -/
structure InsertBuilder where
  with_queries : List (String × String)
  table : String
  fields : List String
  values : List String
  returning_fields : List String
  upsert_field : Option String
  upsert_set_fields : List String
  params : Bucket
deriving DecidableEq

/-- insert_builder.rs: `InsertBuilder::new`. -/
def InsertBuilder.new (fromTable : String) : InsertBuilder :=
  ⟨[], fromTable, [], [], [], none, [], Bucket.new⟩

/-- insert_builder.rs: `InsertBuilder::with_queries_to_query`. -/
def InsertBuilder.with_queries_to_query (b : InsertBuilder) : Option String :=
  if b.with_queries.length > 0 then
    some ("WITH " ++ joinStr ", "
      (b.with_queries.map (fun item => item.1 ++ " AS (" ++ item.2 ++ ")")))
  else none

/-- insert_builder.rs: `InsertBuilder::from_to_query`. -/
def InsertBuilder.from_to_query (b : InsertBuilder) : String :=
  "INSERT INTO " ++ b.table

/-- insert_builder.rs: `InsertBuilder::fields_to_query`. -/
def InsertBuilder.fields_to_query (b : InsertBuilder) : Option String :=
  if b.fields.length > 0 then some ("(" ++ joinStr ", " b.fields ++ ")") else none

/-- insert_builder.rs: `InsertBuilder::values_to_query`. -/
def InsertBuilder.values_to_query (b : InsertBuilder) : Option String :=
  if b.values.length > 0 then some ("VALUES (" ++ joinStr ", " b.values ++ ")") else none

/-- insert_builder.rs: `InsertBuilder::on_conflict_query`. -/
def InsertBuilder.on_conflict_query (b : InsertBuilder) : Option String :=
  match b.upsert_field with
  | some t =>
    if b.upsert_set_fields.length > 0 then
      some ("ON CONFLICT (" ++ t ++ ") DO UPDATE SET "
        ++ joinStr ", " (b.upsert_set_fields.map (fun field => field ++ " = EXCLUDED." ++ field)))
    else
      some ("ON CONFLICT (" ++ t ++ ") DO NOTHING")
  | none => none

/-- insert_builder.rs: `InsertBuilder::returning_fields_to_query`. -/
def InsertBuilder.returning_fields_to_query (b : InsertBuilder) : Option String :=
  if b.returning_fields.length > 0 then
    some ("RETURNING " ++ joinStr ", " b.returning_fields)
  else none

/-- insert_builder.rs: the `result` vector built inside `get_query`, in source
push order. -/
def InsertBuilder.sections (b : InsertBuilder) : List String :=
  b.with_queries_to_query.toList ++ [b.from_to_query] ++ b.fields_to_query.toList
    ++ b.values_to_query.toList ++ b.on_conflict_query.toList
    ++ b.returning_fields_to_query.toList

/-- insert_builder.rs: `InsertBuilder::get_query` (`result.join(" ")`). -/
def InsertBuilder.get_query (b : InsertBuilder) : String :=
  joinStr " " b.sections

/-- insert_builder.rs: `QueryBuilder::add_param` for InsertBuilder. -/
def InsertBuilder.add_param (b : InsertBuilder) (value : Val) : InsertBuilder × Nat :=
  let p := b.params.push value
  ({ b with params := p.1 }, p.2)

/-- insert_builder.rs: `QueryBuilder::get_ref_params` for InsertBuilder. -/
def InsertBuilder.get_ref_params (b : InsertBuilder) : List Val :=
  b.params.get_refs

/-- insert_builder.rs: `QueryWithFields::field` for InsertBuilder. -/
def InsertBuilder.field (b : InsertBuilder) (field : String) : InsertBuilder :=
  { b with fields := b.fields ++ [field] }

/-- insert_builder.rs: `QueryWithFields::fields` for InsertBuilder (named
`fields_` because `fields` is the struct field). -/
def InsertBuilder.fields_ (b : InsertBuilder) (fields : List String) : InsertBuilder :=
  { b with fields := b.fields ++ fields }

/-- insert_builder.rs: `QueryBuilderWithValues::value` for InsertBuilder. -/
def InsertBuilder.value (b : InsertBuilder) (value : Val) : InsertBuilder :=
  let p := b.params.push value
  { b with params := p.1, values := b.values ++ [placeholder p.2] }

/-- insert_builder.rs: the loop body of `value_fragment` — state is
`(result, param_count, params)`, one step per character of the fragment. -/
def vfStep (values : List Val) (st : String × Nat × Bucket) (character : Char) :
    String × Nat × Bucket :=
  if character = '?' then
    match values[st.2.1]? with
    | some v =>
      let p := st.2.2.push v
      (st.1 ++ placeholder p.2, st.2.1 + 1, p.1)
    | none =>
      let p := st.2.2.push (Val.str "missing_parameter")
      (st.1 ++ placeholder p.2, st.2.1 + 1, p.1)
  else
    (st.1 ++ String.singleton character, st.2.1, st.2.2)

/-- insert_builder.rs: `QueryBuilderWithValues::value_fragment` for
InsertBuilder. -/
def InsertBuilder.value_fragment (b : InsertBuilder) (fragment : String)
    (values : List Val) : InsertBuilder :=
  let r := fragment.data.foldl (vfStep values) ("", 0, b.params)
  { b with values := b.values ++ [r.1], params := r.2.2 }

/-- insert_builder.rs: `QueryBuilderWithValues::value_with_fn` for
InsertBuilder: push the value once, `prefix = wrapper_fn.join("(")`, reverse the
trailing args, and close each function with `", {arg})"` when the reversed args
list has a `Some` at that position, `")"` otherwise. -/
def InsertBuilder.value_with_fn (b : InsertBuilder) (value : Val)
    (wrapper_fn : List String) (args : List (Option String)) : InsertBuilder :=
  let p := b.params.push value
  let pre := joinStr "(" wrapper_fn
  let rev_args := args.reverse
  let suf := concatStr ((List.range wrapper_fn.length).map (fun idx =>
    match rev_args.get? idx with
    | some (some a) => ", " ++ a ++ ")"
    | _ => ")"))
  { b with params := p.1, values := b.values ++ [pre ++ "(" ++ placeholder p.2 ++ suf] }

/-- insert_builder.rs: `QueryBuilderWithReturningColumns::returning` for
InsertBuilder. -/
def InsertBuilder.returning (b : InsertBuilder) (fields : List String) : InsertBuilder :=
  { b with returning_fields := b.returning_fields ++ fields }

/-- insert_builder.rs: `QueryBuilderWithQueries::with_query` for InsertBuilder. -/
def InsertBuilder.with_query (b : InsertBuilder) (name query : String) : InsertBuilder :=
  { b with with_queries := b.with_queries ++ [(name, query)] }

/-- insert_builder.rs: `QueryBuilderWithOnConflict::on_conflict` for
InsertBuilder — overwrites both the target and the update-column list. -/
def InsertBuilder.on_conflict (b : InsertBuilder) (conflict_field : String)
    (update_fields : List String) : InsertBuilder :=
  { b with upsert_field := some conflict_field, upsert_set_fields := update_fields }

/-- update_builder.rs: `struct UpdateBuilder`. -/
structure UpdateBuilder where
  with_queries : List (String × String)
  table : String
  fields : List String
  returning_fields : List String
  from_items : List String
  conditions : List String
  params : Bucket
deriving DecidableEq

/-- update_builder.rs: `UpdateBuilder::new`. -/
def UpdateBuilder.new (fromTable : String) : UpdateBuilder :=
  ⟨[], fromTable, [], [], [], [], Bucket.new⟩

/-- update_builder.rs: `UpdateBuilder::with_queries_to_query`. -/
def UpdateBuilder.with_queries_to_query (b : UpdateBuilder) : Option String :=
  if b.with_queries.length > 0 then
    some ("WITH " ++ joinStr ", "
      (b.with_queries.map (fun item => item.1 ++ " AS (" ++ item.2 ++ ")")))
  else none

/-- update_builder.rs: `UpdateBuilder::table_to_query`. -/
def UpdateBuilder.table_to_query (b : UpdateBuilder) : String :=
  "UPDATE " ++ b.table

/-- update_builder.rs: `UpdateBuilder::set_to_query`. -/
def UpdateBuilder.set_to_query (b : UpdateBuilder) : Option String :=
  if b.fields.length > 0 then some ("SET " ++ joinStr ", " b.fields) else none

/-- update_builder.rs: `UpdateBuilder::from_items_to_query`. -/
def UpdateBuilder.from_items_to_query (b : UpdateBuilder) : Option String :=
  if b.from_items.length > 0 then some ("FROM " ++ joinStr ", " b.from_items) else none

/-- update_builder.rs: `UpdateBuilder::returning_fields_to_query`. -/
def UpdateBuilder.returning_fields_to_query (b : UpdateBuilder) : Option String :=
  if b.returning_fields.length > 0 then
    some ("RETURNING " ++ joinStr ", " b.returning_fields)
  else none

/-- update_builder.rs: `UpdateBuilder::where_to_query`. -/
def UpdateBuilder.where_to_query (b : UpdateBuilder) : Option String :=
  if b.conditions.length > 0 then some ("WHERE " ++ joinStr " AND " b.conditions) else none

/-- update_builder.rs: the `result` vector built inside `get_query`, in source
push order. -/
def UpdateBuilder.sections (b : UpdateBuilder) : List String :=
  b.with_queries_to_query.toList ++ [b.table_to_query] ++ b.set_to_query.toList
    ++ b.from_items_to_query.toList ++ b.returning_fields_to_query.toList
    ++ b.where_to_query.toList

/-- update_builder.rs: `UpdateBuilder::get_query` (`result.join(" ")`). -/
def UpdateBuilder.get_query (b : UpdateBuilder) : String :=
  joinStr " " b.sections

/-- update_builder.rs: `QueryBuilder::add_param` for UpdateBuilder. -/
def UpdateBuilder.add_param (b : UpdateBuilder) (value : Val) : UpdateBuilder × Nat :=
  let p := b.params.push value
  ({ b with params := p.1 }, p.2)

/-- update_builder.rs: `QueryBuilder::get_ref_params` for UpdateBuilder. -/
def UpdateBuilder.get_ref_params (b : UpdateBuilder) : List Val :=
  b.params.get_refs

/-- update_builder.rs: `QueryBuilderWithWhere::where_condition` for
UpdateBuilder. -/
def UpdateBuilder.where_condition (b : UpdateBuilder) (raw : String) : UpdateBuilder :=
  { b with conditions := b.conditions ++ [raw] }

/-- prelude.rs: default `QueryBuilderWithWhere::where_eq`, instantiated at
UpdateBuilder. -/
def UpdateBuilder.where_eq (b : UpdateBuilder) (field : String) (value : Val) : UpdateBuilder :=
  let p := b.add_param value
  p.1.where_condition (field ++ " = " ++ placeholder p.2)

/-- prelude.rs: default `QueryBuilderWithWhere::where_ne`, instantiated at
UpdateBuilder. -/
def UpdateBuilder.where_ne (b : UpdateBuilder) (field : String) (value : Val) : UpdateBuilder :=
  let p := b.add_param value
  p.1.where_condition (field ++ " <> " ++ placeholder p.2)

/-- update_builder.rs: `QueryBuilderWithSet::set` for UpdateBuilder. -/
def UpdateBuilder.set (b : UpdateBuilder) (field : String) (value : Val) : UpdateBuilder :=
  let p := b.params.push value
  { b with params := p.1, fields := b.fields ++ [field ++ " = " ++ placeholder p.2] }

/-- update_builder.rs: `QueryBuilderWithSet::set_computed` for UpdateBuilder. -/
def UpdateBuilder.set_computed (b : UpdateBuilder) (field value : String) : UpdateBuilder :=
  { b with fields := b.fields ++ [field ++ " = " ++ value] }

/-- update_builder.rs: `QueryBuilderWithQueries::with_query` for UpdateBuilder. -/
def UpdateBuilder.with_query (b : UpdateBuilder) (name query : String) : UpdateBuilder :=
  { b with with_queries := b.with_queries ++ [(name, query)] }

/-- update_builder.rs: `QueryBuilderWithReturningColumns::returning` for
UpdateBuilder. -/
def UpdateBuilder.returning (b : UpdateBuilder) (fields : List String) : UpdateBuilder :=
  { b with returning_fields := b.returning_fields ++ fields }

/-- update_builder.rs: `QueryBuilderWithFrom::from` for UpdateBuilder (named
`from_` because `from` is a Lean keyword). -/
def UpdateBuilder.from_ (b : UpdateBuilder) (item : String) : UpdateBuilder :=
  { b with from_items := b.from_items ++ [item] }

/-- One call of the InsertBuilder mutating API (insert_builder.rs), used to
quantify over call sequences. -/
inductive InsertOp where
  | fieldOp (f : String)
  | fieldsOp (fs : List String)
  | valueOp (v : Val)
  | valueFragmentOp (fragment : String) (vs : List Val)
  | valueWithFnOp (v : Val) (fns : List String) (args : List (Option String))
  | returningOp (fs : List String)
  | withQueryOp (name query : String)
  | onConflictOp (t : String) (cs : List String)
deriving DecidableEq

/-- Dispatch one InsertBuilder API call. -/
def applyInsertOp (b : InsertBuilder) : InsertOp → InsertBuilder
  | .fieldOp f => b.field f
  | .fieldsOp fs => b.fields_ fs
  | .valueOp v => b.value v
  | .valueFragmentOp fragment vs => b.value_fragment fragment vs
  | .valueWithFnOp v fns args => b.value_with_fn v fns args
  | .returningOp fs => b.returning fs
  | .withQueryOp name query => b.with_query name query
  | .onConflictOp t cs => b.on_conflict t cs

/-- Run a call sequence against an InsertBuilder. -/
def applyInsertOps (ops : List InsertOp) (b : InsertBuilder) : InsertBuilder :=
  ops.foldl applyInsertOp b

/-- The values pushed by the `value` calls of a sequence, in call order. -/
def pushedValues (ops : List InsertOp) : List Val :=
  ops.filterMap (fun op => match op with | .valueOp v => some v | _ => none)

/-- The field names added by the `field` calls of a sequence, in call order. -/
def fieldNames (ops : List InsertOp) : List String :=
  ops.filterMap (fun op => match op with | .fieldOp f => some f | _ => none)

/-- A call sequence consisting solely of single-field and single-value pushes. -/
def fvOnly (ops : List InsertOp) : Prop :=
  ∀ op ∈ ops, (∃ f, op = InsertOp.fieldOp f) ∨ (∃ v, op = InsertOp.valueOp v)

/-- A call sequence that never calls `on_conflict`. -/
def noConflictOp (ops : List InsertOp) : Prop :=
  ∀ t cs, InsertOp.onConflictOp t cs ∉ ops

/-- Modelled from the spec (§4.2 Fragment Encoder), for the refinement proof of
the fragment expansion claim: scanning left to right with `n` values already in
the store, each `'?'` consumes the next supplied value (a sentinel
`"missing_parameter"` when the values are exhausted), is replaced by the
placeholder of the next index, and every other character passes through
unchanged.  Returns the rendered text and the values pushed, in order. -/
def expandSpec : List Char → List Val → Nat → String × List Val
  | [], _, _ => ("", [])
  | c :: cs, vs, n =>
    if c = '?' then
      let w := match vs with | [] => Val.str "missing_parameter" | v :: _ => v
      let r := expandSpec cs vs.tail (n + 1)
      (placeholder (n + 1) ++ r.1, w :: r.2)
    else
      let r := expandSpec cs vs n
      (String.singleton c ++ r.1, r.2)

/-- The nested function-call text actually produced by `value_with_fn`: the
first chain element is the outermost call, and each function trailing
argument (when present) sits before its own closing parenthesis. -/
def nestSpec : List String → List (Option String) → String → String
  | [], _, inner => inner
  | f :: fs, [], inner => f ++ "(" ++ nestSpec fs [] inner ++ ")"
  | f :: fs, a :: rest, inner =>
    f ++ "(" ++ nestSpec fs rest inner
      ++ (match a with | some x => ", " ++ x | none => "") ++ ")"

/-- Number of `$` characters in a string — each placeholder contributes exactly
one, so this counts the `$N` placeholders of a rendered statement whose
non-placeholder text is `$`-free. -/
def dollarCount (s : String) : Nat := s.data.count '$'

lemma sassoc (a b c : String) : a ++ b ++ c = a ++ (b ++ c) :=
  String.ext (by simp [String.data_append])

lemma sappend_nil (s : String) : s ++ "" = s :=
  String.ext (by rw [String.data_append]; show s.data ++ [] = s.data; simp)

lemma snil_append (s : String) : "" ++ s = s :=
  String.ext (by rw [String.data_append]; show [] ++ s.data = s.data; simp)

lemma dc_append (a b : String) : dollarCount (a ++ b) = dollarCount a + dollarCount b := by
  simp [dollarCount, String.data_append]

lemma digitChar_ne (d : Nat) : digitChar d ≠ '$' := by
  unfold digitChar; split_ifs <;> decide

lemma toDigitsAux_no_dollar : ∀ fuel n, '$' ∉ toDigitsAux fuel n := by
  intro fuel
  induction fuel with
  | zero => intro n h; simp [toDigitsAux] at h
  | succ f ih =>
    intro n h
    unfold toDigitsAux at h
    split at h
    · rw [List.mem_singleton] at h
      exact digitChar_ne n h.symm
    · rw [List.mem_append] at h
      rcases h with h | h
      · exact ih _ h
      · rw [List.mem_singleton] at h
        exact digitChar_ne _ h.symm

lemma dc_natStr (n : Nat) : dollarCount (natStr n) = 0 := by
  have : (natStr n).data = toDigitsAux (n + 1) n := rfl
  rw [dollarCount, this]
  exact List.count_eq_zero.mpr (toDigitsAux_no_dollar _ _)

lemma dc_placeholder (i : Nat) : dollarCount (placeholder i) = 1 := by
  rw [placeholder, dc_append, dc_natStr]
  decide

lemma joinStr_cons_cons (sep s : String) (x : String) (l : List String) :
    joinStr sep (s :: x :: l) = s ++ sep ++ joinStr sep (x :: l) := rfl

lemma dc_joinStr (sep : String) (hsep : dollarCount sep = 0) :
    ∀ l : List String, dollarCount (joinStr sep l) = (l.map dollarCount).sum := by
  intro l
  induction l with
  | nil => simp [joinStr]; decide
  | cons s rest ih =>
    cases rest with
    | nil => simp [joinStr]
    | cons x r =>
      rw [joinStr_cons_cons, dc_append, dc_append, hsep, ih]
      simp [Nat.add_assoc]

lemma joinStr_mem_split (sep : String) :
    ∀ (l : List String) (x : String), x ∈ l → ∃ p s, joinStr sep l = p ++ x ++ s := by
  intro l
  induction l with
  | nil => intro x hx; simp at hx
  | cons a rest ih =>
    intro x hx
    rcases List.mem_cons.mp hx with h | h
    · subst h
      cases rest with
      | nil => exact ⟨"", "", by rw [snil_append, sappend_nil]; rfl⟩
      | cons b r =>
        refine ⟨"", sep ++ joinStr sep (b :: r), ?_⟩
        rw [snil_append, joinStr_cons_cons, sassoc]
    · have hne : rest ≠ [] := List.ne_nil_of_mem h
      rcases rest with _ | ⟨b, r⟩
      · exact absurd rfl hne
      rcases ih x h with ⟨p, s, hp⟩
      refine ⟨a ++ sep ++ p, s, ?_⟩
      rw [joinStr_cons_cons, hp]
      simp only [sassoc]

lemma joinStr_append_last (sep : String) :
    ∀ (l : List String) (x : String), l ≠ [] →
      joinStr sep (l ++ [x]) = joinStr sep l ++ sep ++ x := by
  intro l
  induction l with
  | nil => intro x h; exact absurd rfl h
  | cons a rest ih =>
    intro x _
    cases rest with
    | nil => rfl
    | cons b r =>
      have h2 := ih x (by simp)
      simp only [List.cons_append] at h2 ⊢
      rw [joinStr_cons_cons, h2, joinStr_cons_cons]
      simp only [sassoc]

lemma get?_eq_head?_drop {α : Type} : ∀ (l : List α) (n : Nat), l.get? n = (l.drop n).head? := by
  intro l
  induction l with
  | nil => intro n; cases n <;> rfl
  | cons a rest ih =>
    intro n
    cases n with
    | zero => rfl
    | succ m => exact ih m

/-- C1: the claim says `SelectBuilder::get_query` renders WITH-prologues and
every added join (per its tag) between the FROM clause and any WHERE clause.
The code evaluated at the failing input: three joins are recorded through the
`QueryBuilderWithJoin` methods, yet the rendered text is exactly
`SELECT * FROM users` — `get_query` never pushes the `joins` list (and
SelectBuilder has no WITH state at all), so no join text ever appears. -/
theorem c1_joins_never_rendered :
    ((((SelectBuilder.new "users").inner_join "orders" "users.id = orders.user_id").left_join
        "t2" "r2").left_outer_join "t3" "r3").joins.length = 3
    ∧ ((((SelectBuilder.new "users").inner_join "orders" "users.id = orders.user_id").left_join
        "t2" "r2").left_outer_join "t3" "r3").get_query = "SELECT * FROM users"
    ∧ hasSub "JOIN".data ((((SelectBuilder.new "users").inner_join "orders"
        "users.id = orders.user_id").left_join "t2" "r2").left_outer_join
        "t3" "r3").get_query.data = false :=
  ⟨rfl, by decide, by decide⟩

/-- C2 counterexample: an InsertBuilder exercised through every clause-adding
method it has (with_query, field, value, on_conflict, returning) renders with
RETURNING as the final clause and contains no WHERE text anywhere — the claimed
appended-WHERE support does not exist in insert_builder.rs. -/
theorem c2_counterexample :
    ((((((InsertBuilder.new "users").with_query "w" "q").field "id").value
        (Val.int 5)).on_conflict "id" ["name"]).returning ["id"]).get_query
      = "WITH w AS (q) INSERT INTO users (id) VALUES ($1) ON CONFLICT (id) DO UPDATE SET name = EXCLUDED.name RETURNING id"
    ∧ hasSub "WHERE".data ((((((InsertBuilder.new "users").with_query "w" "q").field
        "id").value (Val.int 5)).on_conflict "id" ["name"]).returning ["id"]).get_query.data
      = false :=
  ⟨by decide, by decide⟩

/-- C2 (amended): the INSERT builder supports no WHERE clause at all — none of
its methods records a condition, and no clause of the rendered statement is a
WHERE clause (every section starts with WITH, INSERT INTO, `(`, VALUES,
ON CONFLICT or RETURNING, in that fixed order). -/
theorem c2_no_where_in_insert (b : InsertBuilder) :
    ∀ s ∈ b.sections, isPre "WHERE".data s.data = false := by
  intro s hs
  rw [InsertBuilder.sections] at hs
  simp only [List.mem_append, List.mem_singleton, Option.mem_toList, Option.mem_def] at hs
  rcases hs with ((((h | h) | h) | h) | h) | h
  · rw [InsertBuilder.with_queries_to_query] at h
    split at h
    · rw [Option.some.injEq] at h
      subst h; rfl
    · exact absurd h (by simp)
  · subst h; rfl
  · rw [InsertBuilder.fields_to_query] at h
    split at h
    · rw [Option.some.injEq] at h
      subst h; rfl
    · exact absurd h (by simp)
  · rw [InsertBuilder.values_to_query] at h
    split at h
    · rw [Option.some.injEq] at h
      subst h; rfl
    · exact absurd h (by simp)
  · rcases hu : b.upsert_field with _ | t
    · simp only [InsertBuilder.on_conflict_query, hu] at h
      exact Option.noConfusion h
    · simp only [InsertBuilder.on_conflict_query, hu] at h
      split at h
      · rw [Option.some.injEq] at h
        subst h; rfl
      · rw [Option.some.injEq] at h
        subst h; rfl
  · rw [InsertBuilder.returning_fields_to_query] at h
    split at h
    · rw [Option.some.injEq] at h
      subst h; rfl
    · exact absurd h (by simp)

/-- C2 witness: the amended no-WHERE theorem applied to a concrete builder and
section. -/
theorem c2_no_where_witness :
    isPre "WHERE".data ("INSERT INTO users" : String).data = false :=
  c2_no_where_in_insert (InsertBuilder.new "users") "INSERT INTO users" (by decide)

/-- C8: the end-to-end UPDATE scenario — `where_eq("k", 42)` then
`set("id", 5)` renders `UPDATE publishers SET id = $2 WHERE k = $1` with
references `[42, 5]` in call order. -/
theorem c8_update_scenario :
    (((UpdateBuilder.new "publishers").where_eq "k" (Val.int 42)).set "id"
        (Val.int 5)).get_query
      = "UPDATE publishers SET id = $2 WHERE k = $1"
    ∧ (((UpdateBuilder.new "publishers").where_eq "k" (Val.int 42)).set "id"
        (Val.int 5)).get_ref_params
      = [Val.int 42, Val.int 5] :=
  ⟨by decide, by decide⟩

/-- C9: `left_join` appends the `Join.LeftOuter` variant and `left_outer_join`
appends the `Join.Left` variant — the two methods store swapped tags — and
`Join.to_string` renders those variants as `LEFT OUTER JOIN … ON …` and
`LEFT JOIN … ON …` respectively. -/
theorem c9_swapped_left_join_tags (b : SelectBuilder) (table relation : String) :
    (b.left_join table relation).joins = b.joins ++ [Join.LeftOuter table relation]
    ∧ (b.left_outer_join table relation).joins = b.joins ++ [Join.Left table relation]
    ∧ (Join.LeftOuter table relation).to_string
        = "LEFT OUTER JOIN " ++ table ++ " ON " ++ relation
    ∧ (Join.Left table relation).to_string
        = "LEFT JOIN " ++ table ++ " ON " ++ relation :=
  ⟨rfl, rfl, rfl, rfl⟩

/-- C10: every `limit` call (and likewise `offset`) pushes its argument as a
fresh parameter and overwrites the clause text with the new placeholder; after
`limit(a); limit(b)` both values are in the reference list but the text names
only the second placeholder, so the first pushed value has no matching
placeholder in the text. -/
theorem c10_limit_offset_repush (sb : SelectBuilder) (a b : Int) :
    ((sb.limit_ a).limit_ b).params.content
        = sb.params.content ++ [Val.int a, Val.int b]
    ∧ ((sb.limit_ a).limit_ b).limit
        = some (placeholder (sb.params.content.length + 2))
    ∧ ((sb.offset_ a).offset_ b).params.content
        = sb.params.content ++ [Val.int a, Val.int b]
    ∧ ((sb.offset_ a).offset_ b).offset
        = some (placeholder (sb.params.content.length + 2))
    ∧ (((SelectBuilder.new "t").limit_ a).limit_ b).get_query
        = "SELECT * FROM t LIMIT $2"
    ∧ (((SelectBuilder.new "t").limit_ a).limit_ b).get_ref_params
        = [Val.int a, Val.int b]
    ∧ hasSub "$1".data (((SelectBuilder.new "t").limit_ a).limit_ b).get_query.data
        = false := by
  refine ⟨?_, ?_, ?_, ?_, rfl, rfl, ?_⟩
  · simp [SelectBuilder.limit_, Bucket.push]
  · simp [SelectBuilder.limit_, Bucket.push]
  · simp [SelectBuilder.offset_, Bucket.push]
  · simp [SelectBuilder.offset_, Bucket.push]
  · have hq : (((SelectBuilder.new "t").limit_ a).limit_ b).get_query
        = "SELECT * FROM t LIMIT $2" := rfl
    rw [hq]
    decide

/-- C6: upsert rendering — a set target with non-empty update columns renders
`ON CONFLICT (t) DO UPDATE SET c = EXCLUDED.c, …`; a set target with an empty
list renders `ON CONFLICT (t) DO NOTHING`; that clause appears inside
`get_query`; a call sequence that never calls `on_conflict` renders no
ON CONFLICT clause; and a repeated `on_conflict` call overwrites the previous
one entirely (last call wins). -/
theorem c6_on_conflict_rendering (b : InsertBuilder) (t : String) (cs : List String) :
    (cs ≠ [] → (b.on_conflict t cs).on_conflict_query
        = some ("ON CONFLICT (" ++ t ++ ") DO UPDATE SET "
            ++ joinStr ", " (cs.map (fun c => c ++ " = EXCLUDED." ++ c))))
    ∧ ((b.on_conflict t []).on_conflict_query
        = some ("ON CONFLICT (" ++ t ++ ") DO NOTHING"))
    ∧ (∀ X, b.on_conflict_query = some X → ∃ p s, b.get_query = p ++ X ++ s)
    ∧ (∀ ops t0, noConflictOp ops →
        (applyInsertOps ops (InsertBuilder.new t0)).on_conflict_query = none)
    ∧ (∀ t2 cs2, (b.on_conflict t cs).on_conflict t2 cs2 = b.on_conflict t2 cs2) := by
  refine ⟨?_, rfl, ?_, ?_, fun t2 cs2 => rfl⟩
  · intro hcs
    rw [InsertBuilder.on_conflict_query]
    simp only [InsertBuilder.on_conflict]
    rw [if_pos (by simpa using List.length_pos.mpr hcs)]
  · intro X hX
    have hmem : X ∈ b.sections := by
      simp [InsertBuilder.sections, hX]
    exact joinStr_mem_split " " b.sections X hmem
  · intro ops t0 hops
    have key : ∀ (ops : List InsertOp) (b0 : InsertBuilder),
        (∀ t1 cs1, InsertOp.onConflictOp t1 cs1 ∉ ops) →
        (applyInsertOps ops b0).upsert_field = b0.upsert_field := by
      intro ops0
      induction ops0 with
      | nil => intro b0 _; rfl
      | cons op rest ih =>
        intro b0 hno
        rw [applyInsertOps, List.foldl_cons]
        have hrest : ∀ t1 cs1, InsertOp.onConflictOp t1 cs1 ∉ rest := by
          intro t1 cs1 hmem
          exact hno t1 cs1 (List.mem_cons_of_mem _ hmem)
        have := ih (applyInsertOp b0 op) hrest
        rw [applyInsertOps] at this
        rw [this]
        cases op with
        | onConflictOp t1 cs1 => exact absurd (List.mem_cons_self _ _) (hno t1 cs1)
        | fieldOp f => rfl
        | fieldsOp fs => rfl
        | valueOp v => rfl
        | valueFragmentOp fragment vs => rfl
        | valueWithFnOp v fns args => rfl
        | returningOp fs => rfl
        | withQueryOp name query => rfl
    have : (applyInsertOps ops (InsertBuilder.new t0)).upsert_field = none :=
      key ops (InsertBuilder.new t0) hops
    rw [InsertBuilder.on_conflict_query, this]

/-- C6 witness: the upsert theorem applied at a concrete builder, target and
column list. -/
theorem c6_on_conflict_witness :
    ((InsertBuilder.new "x").on_conflict "id" ["a", "b"]).on_conflict_query
      = some "ON CONFLICT (id) DO UPDATE SET a = EXCLUDED.a, b = EXCLUDED.b" := by
  have h := (c6_on_conflict_rendering (InsertBuilder.new "x") "id" ["a", "b"]).1 (by decide)
  exact h.trans (by decide)

lemma concatStr_append : ∀ l1 l2 : List String,
    concatStr (l1 ++ l2) = concatStr l1 ++ concatStr l2 := by
  intro l1 l2
  induction l1 with
  | nil => simp [concatStr, snil_append]
  | cons s r ih => simp [concatStr, ih, sassoc]

/-- The text built by `value_with_fn` equals the nested-call rendering
`nestSpec` whenever the chain is non-empty and the trailing-argument list has
the same length as the chain. -/
lemma vwf_text : ∀ (fs : List String) (args : List (Option String)) (inner : String),
    fs ≠ [] → args.length = fs.length →
    joinStr "(" fs ++ "(" ++ inner
        ++ concatStr ((List.range fs.length).map (fun idx =>
            match args.reverse.get? idx with
            | some (some a) => ", " ++ a ++ ")"
            | _ => ")"))
      = nestSpec fs args inner := by
  intro fs
  induction fs with
  | nil => intro args inner h; exact absurd rfl h
  | cons f fs' ih =>
    intro args inner _ hlen
    rcases args with _ | ⟨a, args'⟩
    · simp at hlen
    have hlen' : args'.length = fs'.length := by simpa using hlen
    cases fs' with
    | nil =>
      have hargs' : args' = [] := List.length_eq_zero.mp hlen'
      subst hargs'
      have hr1 : List.range ([f] : List String).length = [0] := rfl
      cases a with
      | some x =>
        simp only [nestSpec, joinStr, hr1, List.map_cons, List.map_nil,
          List.reverse_singleton, concatStr, List.get?]
        simp only [sassoc, sappend_nil]
      | none =>
        simp only [nestSpec, joinStr, hr1, List.map_cons, List.map_nil,
          List.reverse_singleton, concatStr, List.get?]
        simp only [sassoc, sappend_nil, snil_append]
    | cons g r =>
      have hfs' : (g :: r : List String) ≠ [] := by simp
      have ihh := ih args' inner hfs' hlen'
      have hrev : (a :: args').reverse = args'.reverse ++ [a] := List.reverse_cons a args'
      have hrange : List.range ((g :: r).length + 1)
          = List.range (g :: r).length ++ [(g :: r).length] := by
        rw [List.range_succ]
      have hjoin : joinStr "(" (f :: g :: r) = f ++ "(" ++ joinStr "(" (g :: r) :=
        joinStr_cons_cons "(" f g r
      have hlenrev : args'.reverse.length = (g :: r).length := by
        simpa using hlen'
      have hmap : (List.range ((f :: g :: r) : List String).length).map (fun idx =>
            match (a :: args').reverse.get? idx with
            | some (some x) => ", " ++ x ++ ")"
            | _ => ")")
          = (List.range ((g :: r) : List String).length).map (fun idx =>
              match args'.reverse.get? idx with
              | some (some x) => ", " ++ x ++ ")"
              | _ => ")")
            ++ [match a with | some x => ", " ++ x ++ ")" | none => ")"] := by
        rw [show ((f :: g :: r) : List String).length = (g :: r).length + 1 from rfl, hrange,
          List.map_append]
        congr 1
        · apply List.map_congr_left
          intro idx hidx
          rw [hrev, List.get?_append (by rw [hlenrev]; exact List.mem_range.mp hidx)]
        · rw [List.map_singleton, hrev, ← hlenrev, List.get?_concat_length]
          cases a <;> rfl
      rw [hmap, concatStr_append, hjoin]
      simp only [nestSpec]
      rw [← ihh]
      cases a with
      | some x =>
        simp only [concatStr, sassoc, sappend_nil]
      | none =>
        simp only [concatStr, sassoc, sappend_nil, snil_append]

/-- C3 counterexample: chain `[f, g]` with trailing args `[Some a, None]` —
the formula of the claim predicts `g(f($1, a))` (outermost is the last chain
element, which takes the last trailing argument), but the code produces
`f(g($1), a)`: the first chain element is outermost and carries the first
trailing argument. -/
theorem c3_counterexample :
    ((InsertBuilder.new "t").value_with_fn (Val.str "v") ["f", "g"] [some "a", none]).values
      = ["f(g($1), a)"]
    ∧ ((InsertBuilder.new "t").value_with_fn (Val.str "v") ["f", "g"] [some "a", none]).values
      ≠ ["g(f($1, a))"] :=
  ⟨by decide, by decide⟩

/-- C3 (amended): for a non-empty chain `[f_1, …, f_n]` and trailing args
`[a_1, …, a_n]` of the same length, `value_with_fn` pushes the value exactly
once, obtaining index `idx`, and appends
`f_1(f_2(…f_n($idx[, a_n])…[, a_2])[, a_1])` — the first chain element is the
outermost function and receives the first trailing argument (the reversal of
the trailing args matches the last argument to the innermost function), and any
function whose matching argument is `None` closes with no extra argument. -/
theorem c3_value_with_fn_nesting (b : InsertBuilder) (v : Val) (fs : List String)
    (args : List (Option String)) (hfs : fs ≠ []) (hlen : args.length = fs.length) :
    b.value_with_fn v fs args =
      { b with params := ⟨b.params.content ++ [v]⟩,
               values := b.values
                 ++ [nestSpec fs args (placeholder (b.params.content.length + 1))] } := by
  simp only [InsertBuilder.value_with_fn, Bucket.push]
  rw [vwf_text fs args (placeholder (b.params.content.length + 1)) hfs hlen]

/-- C3 witness: the amended nesting theorem applied at the doc-test input of the repository. -/
theorem c3_value_with_fn_witness :
    ((InsertBuilder.new "t").value_with_fn (Val.str "gj")
        ["ST_Transform", "ST_GeomFromGeoJSON"] [some "4362", none]).values
      = ["ST_Transform(ST_GeomFromGeoJSON($1), 4362)"] := by
  have h := c3_value_with_fn_nesting (InsertBuilder.new "t") (Val.str "gj")
    ["ST_Transform", "ST_GeomFromGeoJSON"] [some "4362", none] (by decide) (by decide)
  rw [h]
  decide

lemma getElem?_eq_head?_drop {α : Type} : ∀ (l : List α) (n : Nat), l[n]? = (l.drop n).head? := by
  intro l
  induction l with
  | nil => intro n; simp
  | cons a rest ih =>
    intro n
    cases n with
    | zero => simp
    | succ m => simpa using ih m

/-- The `value_fragment` character fold equals the spec-level left-to-right
expansion: starting from text `res`, `k` markers already consumed and store
`ps`, it appends the expansion of the remaining characters against the
not-yet-consumed values, numbering placeholders from the size of the store. -/
lemma vf_fold (vs : List Val) : ∀ (cs : List Char) (res : String) (k : Nat) (ps : Bucket),
    cs.foldl (vfStep vs) (res, k, ps) =
      (res ++ (expandSpec cs (vs.drop k) ps.content.length).1,
       k + cs.count '?',
       ⟨ps.content ++ (expandSpec cs (vs.drop k) ps.content.length).2⟩) := by
  intro cs
  induction cs with
  | nil =>
    intro res k ps
    simp [expandSpec, sappend_nil]
  | cons c cs ih =>
    intro res k ps
    rw [List.foldl_cons]
    by_cases hc : c = '?'
    · subst hc
      rcases hget : vs[k]? with _ | v
      · have hle : vs.length ≤ k := by
          by_contra hlt
          push_neg at hlt
          rw [List.getElem?_eq_getElem hlt] at hget
          exact Option.noConfusion hget
        have hd1 : vs.drop k = [] := List.drop_eq_nil_of_le hle
        have hd2 : vs.drop (k + 1) = [] :=
          List.drop_eq_nil_of_le (le_trans hle (Nat.le_succ k))
        have hstep : vfStep vs (res, k, ps) '?'
            = (res ++ placeholder (ps.content.length + 1), k + 1,
               ⟨ps.content ++ [Val.str "missing_parameter"]⟩) := by
          simp [vfStep, hget, Bucket.push]
        rw [hstep, ih, hd1, hd2]
        have hlen2 : (ps.content ++ [Val.str "missing_parameter"]).length
            = ps.content.length + 1 := by simp
        rw [hlen2]
        simp only [expandSpec, Prod.mk.injEq]
        refine ⟨?_, ?_, ?_⟩
        · simp [sassoc]
        · simp [List.count_cons]; omega
        · simp
      · have hw : vs.drop k = v :: vs.drop (k + 1) := by
          have h1 : (vs.drop k).head? = some v := by
            rw [← getElem?_eq_head?_drop]; exact hget
          have h2 : (vs.drop k).tail = vs.drop (k + 1) := List.tail_drop vs k
          rcases hdk : vs.drop k with _ | ⟨w, ws⟩
          · rw [hdk] at h1; exact Option.noConfusion h1
          · rw [hdk] at h1 h2
            simp only [List.head?_cons, Option.some.injEq] at h1
            simp only [List.tail_cons] at h2
            rw [h1, h2]
        have hstep : vfStep vs (res, k, ps) '?'
            = (res ++ placeholder (ps.content.length + 1), k + 1,
               ⟨ps.content ++ [v]⟩) := by
          simp [vfStep, hget, Bucket.push]
        rw [hstep, ih, hw]
        have hlen2 : (ps.content ++ [v]).length = ps.content.length + 1 := by simp
        rw [hlen2]
        simp only [expandSpec, Prod.mk.injEq]
        refine ⟨?_, ?_, ?_⟩
        · simp [sassoc]
        · simp [List.count_cons]; omega
        · simp
    · have hstep : vfStep vs (res, k, ps) c = (res ++ String.singleton c, k, ps) := by
        simp [vfStep, hc]
      rw [hstep, ih]
      simp only [expandSpec, if_neg hc, List.count_cons, Prod.mk.injEq]
      refine ⟨by simp [sassoc], by simp [hc], trivial⟩

/-- C5: `value_fragment` refines the spec-level expansion — scanning left to
right, each `?` consumes the next supplied value in order, pushes it, and is
replaced by `$<index>`; excess markers push the `missing_parameter` sentinel;
every other character passes through — and in particular `f(?, ?)` against
`[x, y]` on a fresh builder appends `f($1, $2)` leaving the store `[x, y]`. -/
theorem c5_value_fragment_expansion :
    (∀ (b : InsertBuilder) (fragment : String) (values : List Val),
      b.value_fragment fragment values =
        { b with
            values := b.values
              ++ [(expandSpec fragment.data values b.params.content.length).1],
            params := ⟨b.params.content
              ++ (expandSpec fragment.data values b.params.content.length).2⟩ })
    ∧ (∀ (t : String) (x y : Val),
        ((InsertBuilder.new t).value_fragment "f(?, ?)" [x, y]).values = ["f($1, $2)"]
        ∧ ((InsertBuilder.new t).value_fragment "f(?, ?)" [x, y]).params.content = [x, y]) := by
  constructor
  · intro b fragment values
    simp only [InsertBuilder.value_fragment,
      vf_fold values fragment.data "" 0 b.params, List.drop_zero, snil_append]
  · intro t x y
    exact ⟨rfl, rfl⟩

/-- C7: clause order is structural, not call-order dependent — with no prior
limit/offset, rendering after `limit(a); offset(o)` and after
`offset(o); limit(a)` both place `LIMIT` before `OFFSET` (only the placeholder
indices differ, following call order), while repeated `where_eq` calls append
to the conditions list in call order and render joined with `AND`. -/
theorem c7_structural_clause_order (b : SelectBuilder) (hl : b.limit = none)
    (ho : b.offset = none) (a o : Int) :
    ((b.limit_ a).offset_ o).get_query
        = b.get_query ++ " LIMIT " ++ placeholder (b.params.content.length + 1)
            ++ " OFFSET " ++ placeholder (b.params.content.length + 2)
    ∧ ((b.offset_ o).limit_ a).get_query
        = b.get_query ++ " LIMIT " ++ placeholder (b.params.content.length + 2)
            ++ " OFFSET " ++ placeholder (b.params.content.length + 1)
    ∧ (∀ f1 v1 f2 v2, ((b.where_eq f1 v1).where_eq f2 v2).conditions
        = b.conditions ++ [f1 ++ " = " ++ placeholder (b.params.content.length + 1),
            f2 ++ " = " ++ placeholder (b.params.content.length + 2)])
    ∧ (∀ f1 v1 f2 v2, b.conditions = [] →
        ((b.where_eq f1 v1).where_eq f2 v2).where_to_query
          = some ("WHERE " ++ (f1 ++ " = " ++ placeholder (b.params.content.length + 1))
              ++ " AND " ++ (f2 ++ " = " ++ placeholder (b.params.content.length + 2)))) := by
  have hbase : b.sections
      = [b.select_to_query, b.from_to_query] ++ b.where_to_query.toList
        ++ b.group_by_to_query.toList ++ b.order_by_to_query.toList := by
    simp [SelectBuilder.sections, SelectBuilder.limit_to_query,
      SelectBuilder.offset_to_query, hl, ho]
  have hbne : ([b.select_to_query, b.from_to_query] ++ b.where_to_query.toList
      ++ b.group_by_to_query.toList ++ b.order_by_to_query.toList : List String) ≠ [] := by
    simp
  have hidx : (b.params.content ++ [Val.int a]).length + 1 = b.params.content.length + 2 := by
    simp
  have hidxo : (b.params.content ++ [Val.int o]).length + 1 = b.params.content.length + 2 := by
    simp
  have e1 : (" LIMIT " : String) = " " ++ "LIMIT " := rfl
  have e2 : (" OFFSET " : String) = " " ++ "OFFSET " := rfl
  refine ⟨?_, ?_, ?_, ?_⟩
  · have hsec1 : ((b.limit_ a).offset_ o).sections
        = ([b.select_to_query, b.from_to_query] ++ b.where_to_query.toList
            ++ b.group_by_to_query.toList ++ b.order_by_to_query.toList)
          ++ ["LIMIT " ++ placeholder (b.params.content.length + 1)]
          ++ ["OFFSET " ++ placeholder ((b.params.content ++ [Val.int a]).length + 1)] := rfl
    rw [hidx] at hsec1
    rw [SelectBuilder.get_query, hsec1,
      joinStr_append_last " " _ _ (by simp), joinStr_append_last " " _ _ hbne,
      SelectBuilder.get_query, hbase, e1, e2]
    simp only [sassoc]
  · have hsec2 : ((b.offset_ o).limit_ a).sections
        = ([b.select_to_query, b.from_to_query] ++ b.where_to_query.toList
            ++ b.group_by_to_query.toList ++ b.order_by_to_query.toList)
          ++ ["LIMIT " ++ placeholder ((b.params.content ++ [Val.int o]).length + 1)]
          ++ ["OFFSET " ++ placeholder (b.params.content.length + 1)] := rfl
    rw [hidxo] at hsec2
    rw [SelectBuilder.get_query, hsec2,
      joinStr_append_last " " _ _ (by simp), joinStr_append_last " " _ _ hbne,
      SelectBuilder.get_query, hbase, e1, e2]
    simp only [sassoc]
  · intro f1 v1 f2 v2
    have hc : ((b.where_eq f1 v1).where_eq f2 v2).conditions
        = (b.conditions ++ [f1 ++ " = " ++ placeholder (b.params.content.length + 1)])
          ++ [f2 ++ " = " ++ placeholder ((b.params.content ++ [v1]).length + 1)] := by
      rfl
    rw [hc]
    simp [List.append_assoc]
  · intro f1 v1 f2 v2 hcond
    simp only [SelectBuilder.where_eq, SelectBuilder.add_param, SelectBuilder.where_condition,
      Bucket.push, SelectBuilder.where_to_query, hcond]
    simp [joinStr, sassoc]

/-- C7 witness: the structural-order theorem applied at a fresh builder. -/
theorem c7_structural_order_witness :
    (((SelectBuilder.new "t").limit_ 10).offset_ 5).get_query
      = "SELECT * FROM t LIMIT $1 OFFSET $2" := by
  have h := (c7_structural_clause_order (SelectBuilder.new "t") rfl rfl 10 5).1
  exact h.trans (by decide)

lemma ph_range_shift (n m : Nat) (pre : List String) :
    (pre ++ [placeholder (n + 1)]) ++ (List.range m).map (fun i => placeholder (n + 1 + i + 1))
      = pre ++ (List.range (m + 1)).map (fun i => placeholder (n + i + 1)) := by
  rw [List.range_succ_eq_map, List.map_cons, List.map_map, List.append_assoc,
    List.singleton_append]
  have h2 : (List.range m).map ((fun i => placeholder (n + i + 1)) ∘ Nat.succ)
      = (List.range m).map (fun i => placeholder (n + 1 + i + 1)) := by
    apply List.map_congr_left
    intro i _
    simp only [Function.comp_apply]
    congr 1
    omega
  rw [h2]

/-- Folding a field/value-only call sequence over a builder: the fields list
gains the field names, the store gains the pushed values, and the values list
gains one placeholder per pushed value, numbered consecutively from the previous size of the store; nothing else changes. -/
lemma fv_invariant : ∀ (ops : List InsertOp) (b : InsertBuilder), fvOnly ops →
    applyInsertOps ops b =
      { b with
          fields := b.fields ++ fieldNames ops,
          values := b.values ++ (List.range (pushedValues ops).length).map
            (fun i => placeholder (b.params.content.length + i + 1)),
          params := ⟨b.params.content ++ pushedValues ops⟩ } := by
  intro ops
  induction ops with
  | nil =>
    intro b _
    simp [applyInsertOps, fieldNames, pushedValues]
  | cons op rest ih =>
    intro b hfv
    have hop := hfv op (List.mem_cons_self op rest)
    have hrest : fvOnly rest := fun x hx => hfv x (List.mem_cons_of_mem _ hx)
    rw [applyInsertOps, List.foldl_cons]
    rcases hop with ⟨f, rfl⟩ | ⟨v, rfl⟩
    all_goals simp only [applyInsertOp]
    · have hstep := ih (b.field f) hrest
      rw [applyInsertOps] at hstep
      rw [hstep]
      simp [InsertBuilder.field, fieldNames, pushedValues, List.filterMap_cons,
        List.append_assoc]
    · have hstep := ih (b.value v) hrest
      rw [applyInsertOps] at hstep
      rw [hstep]
      simp only [InsertBuilder.value, Bucket.push, fieldNames, pushedValues,
        List.filterMap_cons, List.length_cons, List.length_append, List.length_singleton]
      rw [InsertBuilder.mk.injEq]
      refine ⟨rfl, rfl, rfl, ?_, rfl, rfl, rfl, ?_⟩
    -- values component
      · rw [← ph_range_shift b.params.content.length (List.filterMap
          (fun op => match op with | InsertOp.valueOp v => some v | x => none) rest).length
          b.values]
        simp [List.append_assoc]
      · rw [Bucket.mk.injEq]
        simp [List.append_assoc]

lemma mem_fieldNames {f : String} {ops : List InsertOp} (h : f ∈ fieldNames ops) :
    InsertOp.fieldOp f ∈ ops := by
  rw [fieldNames] at h
  rcases List.mem_filterMap.mp h with ⟨op, hop, heq⟩
  cases op <;> simp_all

lemma dc_fields_section (F : List String) (hF : ∀ f ∈ F, dollarCount f = 0) :
    dollarCount ("(" ++ joinStr ", " F ++ ")") = 0 := by
  rw [dc_append, dc_append, dc_joinStr ", " (by decide)]
  have hsum : (F.map dollarCount).sum = 0 := by
    apply List.sum_eq_zero
    intro x hx
    rcases List.mem_map.mp hx with ⟨f, hf, rfl⟩
    exact hF f hf
  rw [hsum]
  decide

lemma dc_values_section (n : Nat) :
    dollarCount ("VALUES ("
        ++ joinStr ", " ((List.range n).map (fun i => placeholder (i + 1))) ++ ")") = n := by
  rw [dc_append, dc_append, dc_joinStr ", " (by decide), List.map_map]
  have hsum : ((List.range n).map (dollarCount ∘ fun i => placeholder (i + 1))).sum = n := by
    have h1 : (List.range n).map (dollarCount ∘ fun i => placeholder (i + 1))
        = (List.range n).map (fun _ => 1) := by
      apply List.map_congr_left
      intro i _
      simp [dc_placeholder]
    rw [h1]
    simp [List.map_const', List.sum_replicate]
  rw [hsum]
  have : dollarCount "VALUES (" = 0 := by decide
  rw [this]
  have : dollarCount ")" = 0 := by decide
  rw [this]
  omega

/-- C4: over any sequence of single-field and single-value pushes (with
`$`-free table and field names), the number of `$` placeholder markers in
the `get_query` text equals the number of extracted references; the values list
is exactly the placeholders `$1 … $n` in order, so placeholder `$N`
corresponds to the Nth extracted reference, which is the Nth pushed value. -/
theorem c4_placeholder_reference_agreement (t : String) (ops : List InsertOp)
    (hfv : fvOnly ops) (ht : '$' ∉ t.data)
    (hf : ∀ f, InsertOp.fieldOp f ∈ ops → '$' ∉ f.data) :
    dollarCount (applyInsertOps ops (InsertBuilder.new t)).get_query
        = (applyInsertOps ops (InsertBuilder.new t)).get_ref_params.length
    ∧ (applyInsertOps ops (InsertBuilder.new t)).values
        = (List.range (applyInsertOps ops (InsertBuilder.new t)).params.content.length).map
            (fun i => placeholder (i + 1))
    ∧ (applyInsertOps ops (InsertBuilder.new t)).get_ref_params = pushedValues ops := by
  have hb := fv_invariant ops (InsertBuilder.new t) hfv
  simp only [InsertBuilder.new, Bucket.new, List.nil_append, List.length_nil,
    Nat.zero_add] at hb
  have hdct : dollarCount ("INSERT INTO " ++ t) = 0 := by
    rw [dc_append]
    have h0 : dollarCount t = 0 := List.count_eq_zero.mpr ht
    rw [h0]
    decide
  have hFall : ∀ f ∈ fieldNames ops, dollarCount f = 0 := by
    intro f hmem
    exact List.count_eq_zero.mpr (hf f (mem_fieldNames hmem))
  refine ⟨?_, ?_, ?_⟩
  · simp only [InsertBuilder.new, Bucket.new]
    rw [hb]
    by_cases hF : 0 < (fieldNames ops).length <;>
      by_cases hV : 0 < (pushedValues ops).length <;>
      simp [InsertBuilder.get_query, InsertBuilder.sections,
        InsertBuilder.with_queries_to_query, InsertBuilder.from_to_query,
        InsertBuilder.fields_to_query, InsertBuilder.values_to_query,
        InsertBuilder.on_conflict_query, InsertBuilder.returning_fields_to_query,
        InsertBuilder.get_ref_params, Bucket.get_refs, hF, hV,
        dc_joinStr " " (by decide), hdct, dc_fields_section _ hFall, dc_values_section]
    · omega
    · omega
  · simp only [InsertBuilder.new, Bucket.new]
    rw [hb]
  · simp only [InsertBuilder.new, Bucket.new]
    rw [hb]
    simp [InsertBuilder.get_ref_params, Bucket.get_refs]

/-- C4 witness: the agreement theorem applied to the sequence
`field("id"); value(5)` on table `publishers`. -/
theorem c4_placeholder_reference_witness :
    dollarCount (applyInsertOps [InsertOp.fieldOp "id", InsertOp.valueOp (Val.int 5)]
        (InsertBuilder.new "publishers")).get_query
      = (applyInsertOps [InsertOp.fieldOp "id", InsertOp.valueOp (Val.int 5)]
        (InsertBuilder.new "publishers")).get_ref_params.length := by
  have h := c4_placeholder_reference_agreement "publishers"
    [InsertOp.fieldOp "id", InsertOp.valueOp (Val.int 5)]
    (by
      intro op hop
      simp only [List.mem_cons, List.not_mem_nil, or_false] at hop
      rcases hop with rfl | rfl
      · exact Or.inl ⟨"id", rfl⟩
      · exact Or.inr ⟨Val.int 5, rfl⟩)
    (by decide)
    (by
      intro f hmem
      have hid : f = "id" := by simpa using hmem
      subst hid
      decide)
  exact h.1
